import Mathlib

/-!
# The `unix` bindings: process control and resource limits

A shallow embedding of `src/process.c` and `src/util.c`.

* Host values (`SEXP`) are an inductive type; a double is kept by class
  (finite, infinite, NaN with its low word), which is all the code inspects.
* The operating system is an oracle `OS σ`: a transition function on an
  abstract kernel state `σ` that answers every call with a C return value.
  Every theorem quantifies over the oracle.
* `World σ` carries the kernel state, the list of calls issued so far, and
  the two host globals the code writes (`R_TempDir`, `R_Interactive`).
* An entry point returns the final world together with either the value it
  returns or the error it raises (`Rf_error` does not return, but the effects
  that precede it stay).
* Conditional compilation (`SYS_BUILD_SAFE`, `HAVE_APPARMOR`, the presence of
  the `RLIMIT_*` constants) is a record of flags and constants.
-/

namespace Unix

/-! ## Doubles -/

/-- An IEEE-754 double. A finite value is `(-1)^neg * mant * 2^exp`; a NaN
keeps the low 32-bit word of its payload, which is what `ISNA` inspects. -/
inductive RDouble where
  | finite (neg : Bool) (mant : Nat) (exp : Int)
  | inf (neg : Bool)
  | nan (lowWord : Nat)
  deriving DecidableEq, Repr

/-- The C comparison `val == 0`: true for both zeros, false for NaN. -/
def RDouble.eqZero : RDouble → Bool
  | .finite _ m _ => m == 0
  | _ => false

/-- `ISNA(x)`: a NaN whose low word is 1954 (the missing marker `NA_real_`). -/
def ISNA : RDouble → Bool
  | .nan lw => lw == 1954
  | _ => false

/-- `R_finite(x)`: neither infinite nor NaN. -/
def R_finite : RDouble → Bool
  | .finite _ _ _ => true
  | _ => false

/-- The missing marker `NA_real_`. -/
def NA_REAL : RDouble := .nan 1954

/-- Positive infinity. -/
def R_PosInf : RDouble := .inf false

/-- Negative infinity. -/
def R_NegInf : RDouble := .inf true

/-- A non-negative integer as a double, when it fits the 53-bit significand. -/
def RDouble.ofNat (n : Nat) : RDouble := .finite false n 0

/-- Number of binary digits of `n` (`fuel` bounds the recursion). -/
def bitLength : Nat → Nat → Nat
  | 0, _ => 0
  | fuel + 1, n => if n = 0 then 0 else 1 + bitLength fuel (n / 2)

/-- Integer to double conversion of C under the default rounding mode: the
value is kept when it has at most 53 significant bits and is otherwise rounded
to the nearest double, ties to even. -/
def rlim_to_double (n : Nat) : RDouble :=
  let size := bitLength 128 n
  if size ≤ 53 then .finite false n 0
  else
    let sh := size - 53
    let q := n / 2 ^ sh
    let r := n % 2 ^ sh
    let half := 2 ^ (sh - 1)
    let q1 := if half < r ∨ (r = half ∧ q % 2 = 1) then q + 1 else q
    .finite false q1 (Int.ofNat sh)

/-! ## Host values -/

/-- A value of the host runtime, by storage type. -/
inductive SEXP where
  | nil
  | lgl (xs : List Int)
  | int (xs : List Int) (factor : Bool)
  | real (xs : List RDouble)
  | str (xs : List (Option String))
  | vec (xs : List SEXP)
  | other

/-- The empty value `R_NilValue`. -/
def R_NilValue : SEXP := .nil

/-- The integer and logical missing marker (`INT_MIN`). -/
def NA_INTEGER : Int := -2147483648

/-- `Rf_isNumeric`: integer (not a factor), logical or double storage. -/
def Rf_isNumeric : SEXP → Bool
  | .int _ factor => !factor
  | .lgl _ => true
  | .real _ => true
  | _ => false

/-- `Rf_length`. -/
def Rf_length : SEXP → Nat
  | .nil => 0
  | .lgl xs => xs.length
  | .int xs _ => xs.length
  | .real xs => xs.length
  | .str xs => xs.length
  | .vec xs => xs.length
  | .other => 1

/-- `REAL(x)`: the double data; the accessor rejects any other storage type. -/
def REAL : SEXP → Option (List RDouble)
  | .real xs => some xs
  | _ => none

/-- `STRING_ELT(x, i)`: the accessor rejects a value that is not a character
vector; reading past the end is undefined in C and is treated the same way. -/
def STRING_ELT : SEXP → Nat → Option (Option String)
  | .str xs, i => xs.get? i
  | _, _ => none

/-- `CHAR(s)`: the text of a string element; the missing string reads "NA". -/
def CHAR : Option String → String
  | some s => s
  | none => "NA"

/-- `ScalarLogical(x)`. -/
def ScalarLogical (x : Int) : SEXP :=
  .lgl [if x = NA_INTEGER then NA_INTEGER else if x ≠ 0 then 1 else 0]

/-- `Rf_ScalarInteger(x)`. -/
def Rf_ScalarInteger (x : Int) : SEXP := .int [x] false

/-- `ScalarString(x)`. -/
def ScalarString (x : Option String) : SEXP := .str [x]

/-- `Rf_mkString(s)`. -/
def Rf_mkString (s : String) : SEXP := .str [some s]

/-- The macro `make_string(x)`: `x ? Rf_mkString(x) : ScalarString(NA_STRING)`. -/
def make_string (x : Option String) : SEXP :=
  match x with
  | some s => Rf_mkString s
  | none => ScalarString none

/-- Conversion of a C integer value to `int` (32 bits, two-complement). -/
def toCInt (x : Int) : Int := (x + 2 ^ 31) % 2 ^ 32 - 2 ^ 31

/-- The coercions of the host that the code calls on its arguments. Both are
total in the host (they answer the missing marker when they cannot coerce). -/
structure Host where
  Rf_asInteger : SEXP → Int
  Rf_asLogical : SEXP → Int

/-! ## Errors -/

/-- What an entry point raises. -/
inductive RError where
  | error (msg : String)
  | system (what : String)
  | access (accessor : String)
  deriving DecidableEq, Repr

/-- Modelled from the spec: `bail_if` is defined in exec.c, which is not among
the sources. A non-zero `err` raises a fatal error labelled with `what`. -/
def bail_if (err : Int) (what : String) : Except RError Unit :=
  if err ≠ 0 then .error (.system what) else .ok ()

/-- Modelled from the spec: the text of the fatal error of `bail_if` is the
label followed by " failed" (for instance "setrlimit() failed"). -/
def RError.message : RError → String
  | .error msg => msg
  | .system what => what ++ " failed"
  | .access accessor => accessor ++ "() applied to a value of another type"

/-- The C comparison `a < b` as an `int`. -/
def cLt (a b : Int) : Int := if a < b then 1 else 0

/-! ## Build and platform -/

/-- The two feature macros. -/
structure Build where
  SYS_BUILD_SAFE : Bool
  HAVE_APPARMOR : Bool

/-- Constants of `<sys/resource.h>`. A constant the platform lacks is `none`.
`rlim_t` is an unsigned type of `rlim_bits` bits; `rlim_undef` is what the
platform yields for a double that `rlim_t` cannot hold (undefined in C). -/
structure Platform where
  RLIMIT_AS : Option Int
  RLIMIT_CORE : Int
  RLIMIT_CPU : Int
  RLIMIT_DATA : Int
  RLIMIT_FSIZE : Int
  RLIMIT_MEMLOCK : Option Int
  RLIMIT_NOFILE : Int
  RLIMIT_NPROC : Option Int
  RLIMIT_STACK : Int
  RLIM_INFINITY : Nat
  rlim_bits : Nat
  rlim_undef : RDouble → Nat
  PRIO_PROCESS : Int

/-- The table `rlimit_types`, after the three `#ifndef` fallbacks. -/
def rlimit_types (P : Platform) : List Int :=
  [ P.RLIMIT_AS.getD P.RLIMIT_DATA,
    P.RLIMIT_CORE,
    P.RLIMIT_CPU,
    P.RLIMIT_DATA,
    P.RLIMIT_FSIZE,
    P.RLIMIT_MEMLOCK.getD (-1),
    P.RLIMIT_NOFILE,
    P.RLIMIT_NPROC.getD (-1),
    P.RLIMIT_STACK ]

/-- Double to `rlim_t` conversion of C: the fractional part is discarded; a
value outside the range of `rlim_t` has no defined result. -/
def double_to_rlim (P : Platform) (d : RDouble) : Nat :=
  match d with
  | .finite neg m e =>
    let mag := if 0 ≤ e then m * 2 ^ e.toNat else m / 2 ^ (-e).toNat
    if (neg && mag != 0) || decide (2 ^ P.rlim_bits ≤ mag) then P.rlim_undef d else mag
  | _ => P.rlim_undef d

/-! ## The operating system -/

/-- A call into the C library. -/
inductive Syscall where
  | kill (pid sig : Int)
  | getuid
  | setuid (uid : Int)
  | getgid
  | setgid (gid : Int)
  | getpid
  | getppid
  | getpgid (pid : Int)
  | setpgid (pid pgid : Int)
  | getpriority (which who : Int)
  | setpriority (which who prio : Int)
  | setrlimit (resource : Int) (rlim_cur rlim_max : Nat)
  | aa_change_profile (profile : String)
  | aa_is_enabled
  | aa_getcon
  deriving DecidableEq, Repr

/-- The kernel as an oracle: `call c k` is the C return value of `c` in state
`k` and the state after it; `getcon k` is what `aa_getcon` stores through its
two out-pointers (`none` when it leaves the pointer as it was, NULL). -/
structure OS (σ : Type) where
  call : Syscall → σ → Int × σ
  getcon : σ → Option String × Option String

/-- Process-wide state: the kernel, the calls issued so far (oldest first), and
the two host globals. -/
structure World (σ : Type) where
  kernel : σ
  trace : List Syscall
  R_TempDir : String
  R_Interactive : Int

/-- The world after a call is issued. -/
def World.after (os : OS σ) (c : Syscall) (w : World σ) : World σ :=
  { w with kernel := (os.call c w.kernel).2, trace := w.trace ++ [c] }

/-- The C return value of a call issued in world `w`. -/
def World.ret (os : OS σ) (c : Syscall) (w : World σ) : Int :=
  (os.call c w.kernel).1

/-- Final world and either the returned value or the raised error. -/
abbrev Outcome (σ : Type) := World σ × Except RError SEXP

/-! ## process.c -/

/-- `R_kill`. -/
def R_kill (H : Host) (os : OS σ) (pid sig : SEXP) (w : World σ) : Outcome σ :=
  let c := Syscall.kill (H.Rf_asInteger pid) (H.Rf_asInteger sig)
  match bail_if (cLt (w.ret os c) 0) "send kill()" with
  | .error e => (w.after os c, .error e)
  | .ok _ => (w.after os c, .ok R_NilValue)

/-- `R_getuid`. -/
def R_getuid (os : OS σ) (w : World σ) : Outcome σ :=
  (w.after os .getuid, .ok (Rf_ScalarInteger (toCInt (w.ret os .getuid))))

/-- `R_setuid`. -/
def R_setuid (H : Host) (os : OS σ) (id : SEXP) (w : World σ) : Outcome σ :=
  let c := Syscall.setuid (H.Rf_asInteger id)
  match bail_if (cLt (w.ret os c) 0) "setuid()" with
  | .error e => (w.after os c, .error e)
  | .ok _ => R_getuid os (w.after os c)

/-- `R_getgid`. -/
def R_getgid (os : OS σ) (w : World σ) : Outcome σ :=
  (w.after os .getgid, .ok (Rf_ScalarInteger (toCInt (w.ret os .getgid))))

/-- `R_setgid`. -/
def R_setgid (H : Host) (os : OS σ) (id : SEXP) (w : World σ) : Outcome σ :=
  let c := Syscall.setgid (H.Rf_asInteger id)
  match bail_if (cLt (w.ret os c) 0) "setuid()" with
  | .error e => (w.after os c, .error e)
  | .ok _ => R_getgid os (w.after os c)

/-- `R_getpid`. -/
def R_getpid (os : OS σ) (w : World σ) : Outcome σ :=
  (w.after os .getpid, .ok (Rf_ScalarInteger (toCInt (w.ret os .getpid))))

/-- `R_getppid`. -/
def R_getppid (os : OS σ) (w : World σ) : Outcome σ :=
  (w.after os .getppid, .ok (Rf_ScalarInteger (toCInt (w.ret os .getppid))))

/-- `R_getpgid`. -/
def R_getpgid (os : OS σ) (w : World σ) : Outcome σ :=
  (w.after os (.getpgid 0), .ok (Rf_ScalarInteger (toCInt (w.ret os (.getpgid 0)))))

/-- `R_setpgid`: the return value itself is the error flag. -/
def R_setpgid (H : Host) (os : OS σ) (pid : SEXP) (w : World σ) : Outcome σ :=
  let c := Syscall.setpgid 0 (H.Rf_asInteger pid)
  match bail_if (w.ret os c) "setpgid()" with
  | .error e => (w.after os c, .error e)
  | .ok _ => R_getpgid os (w.after os c)

/-- `R_getpriority`. -/
def R_getpriority (P : Platform) (os : OS σ) (w : World σ) : Outcome σ :=
  let c := Syscall.getpriority P.PRIO_PROCESS 0
  (w.after os c, .ok (Rf_ScalarInteger (toCInt (w.ret os c))))

/-- `R_setpriority`. -/
def R_setpriority (P : Platform) (H : Host) (os : OS σ) (prio : SEXP) (w : World σ) :
    Outcome σ :=
  let c := Syscall.setpriority P.PRIO_PROCESS 0 (H.Rf_asInteger prio)
  match bail_if (cLt (w.ret os c) 0) "setpriority()" with
  | .error e => (w.after os c, .error e)
  | .ok _ => R_getpriority P os (w.after os c)

/-! ## util.c -/

/-- `R_safe_build`. -/
def R_safe_build (B : Build) (w : World σ) : Outcome σ :=
  if B.SYS_BUILD_SAFE then (w, .ok (ScalarLogical 1)) else (w, .ok (ScalarLogical 0))

/-- `R_have_apparmor`. -/
def R_have_apparmor (B : Build) (w : World σ) : Outcome σ :=
  if B.HAVE_APPARMOR then (w, .ok (ScalarLogical 1)) else (w, .ok (ScalarLogical 0))

/-- `R_set_tempdir`. -/
def R_set_tempdir (B : Build) (path : SEXP) (w : World σ) : Outcome σ :=
  if B.SYS_BUILD_SAFE then
    match STRING_ELT path 0 with
    | none => (w, .error (.access "STRING_ELT"))
    | some s => ({ w with R_TempDir := CHAR s }, .ok path)
  else
    (w, .error (.error "Cannot set tempdir(), sys has been built without SYS_BUILD_SAFE"))

/-- `R_set_interactive`. -/
def R_set_interactive (B : Build) (H : Host) (set : SEXP) (w : World σ) : Outcome σ :=
  if B.SYS_BUILD_SAFE then
    ({ w with R_Interactive := H.Rf_asLogical set }, .ok set)
  else
    (w, .error (.error "Cannot set interactive(), sys has been built without SYS_BUILD_SAFE"))

/-- The body of the `for` loop of `R_set_rlimits`, run over the positions that
remain. -/
def set_rlimits_loop (P : Platform) (os : OS σ) (limitvec : SEXP) :
    List Nat → World σ → Outcome σ
  | [], w => (w, .ok R_NilValue)
  | i :: rest, w =>
    let resource := (rlimit_types P).getD i 0
    match REAL limitvec with
    | none => (w, .error (.access "REAL"))
    | some data =>
      let val := data.getD i NA_REAL
      if decide (resource < 0) || val.eqZero || ISNA val then
        set_rlimits_loop P os limitvec rest w
      else
        let rlim_val :=
          double_to_rlim P (if R_finite val then val else rlim_to_double P.RLIM_INFINITY)
        let c := Syscall.setrlimit resource rlim_val rlim_val
        match bail_if (cLt (w.ret os c) 0) "setrlimit()" with
        | .error e => (w.after os c, .error e)
        | .ok _ => set_rlimits_loop P os limitvec rest (w.after os c)

/-- `R_set_rlimits`. -/
def R_set_rlimits (P : Platform) (os : OS σ) (limitvec : SEXP) (w : World σ) : Outcome σ :=
  if !Rf_isNumeric limitvec then
    (w, .error (.error "limitvec is not numeric"))
  else
    let len := (rlimit_types P).length
    if Rf_length limitvec ≠ len then
      (w, .error (.error "limitvec wrong size"))
    else
      set_rlimits_loop P os limitvec (List.range len) w

/-- `R_aa_change_profile`. -/
def R_aa_change_profile (B : Build) (os : OS σ) (profile : SEXP) (w : World σ) : Outcome σ :=
  if B.HAVE_APPARMOR then
    match STRING_ELT profile 0 with
    | none => (w, .error (.access "STRING_ELT"))
    | some s =>
      let c := Syscall.aa_change_profile (CHAR s)
      match bail_if (cLt (w.ret os c) 0) "aa_change_profile()" with
      | .error e => (w.after os c, .error e)
      | .ok _ => (w.after os c, .ok R_NilValue)
  else
    (w, .ok R_NilValue)

/-- `R_aa_is_enabled`. -/
def R_aa_is_enabled (B : Build) (os : OS σ) (w : World σ) : Outcome σ :=
  if !B.HAVE_APPARMOR then
    (w, .ok R_NilValue)
  else
    (w.after os .aa_is_enabled, .ok (ScalarLogical (w.ret os .aa_is_enabled)))

/-- `R_aa_getcon`: `con` and `mode` start as NULL and hold afterwards what the
call stored. -/
def R_aa_getcon (B : Build) (os : OS σ) (w : World σ) : Outcome σ :=
  if !B.HAVE_APPARMOR then
    (w, .ok R_NilValue)
  else
    let con := (os.getcon w.kernel).1
    let mode := (os.getcon w.kernel).2
    if w.ret os .aa_getcon = 0 then
      (w.after os .aa_getcon, .ok R_NilValue)
    else
      (w.after os .aa_getcon, .ok (.vec [make_string con, make_string mode]))

/-! ## Concrete platforms, builds and oracles -/

/-- Linux on a 64-bit machine (glibc). -/
def linux64 (undef : RDouble → Nat) : Platform where
  RLIMIT_AS := some 9
  RLIMIT_CORE := 4
  RLIMIT_CPU := 0
  RLIMIT_DATA := 2
  RLIMIT_FSIZE := 1
  RLIMIT_MEMLOCK := some 8
  RLIMIT_NOFILE := 7
  RLIMIT_NPROC := some 6
  RLIMIT_STACK := 3
  RLIM_INFINITY := 2 ^ 64 - 1
  rlim_bits := 64
  rlim_undef := undef
  PRIO_PROCESS := 0

/-- Darwin (macOS): `rlim_t` is an unsigned 64-bit type and `RLIM_INFINITY`
is `((uint64_t)1 << 63) - 1`. -/
def darwin64 (undef : RDouble → Nat) : Platform where
  RLIMIT_AS := some 5
  RLIMIT_CORE := 4
  RLIMIT_CPU := 0
  RLIMIT_DATA := 2
  RLIMIT_FSIZE := 1
  RLIMIT_MEMLOCK := some 6
  RLIMIT_NOFILE := 8
  RLIMIT_NPROC := some 7
  RLIMIT_STACK := 3
  RLIM_INFINITY := 2 ^ 63 - 1
  rlim_bits := 64
  rlim_undef := undef
  PRIO_PROCESS := 0

/-- A platform whose headers lack `RLIMIT_NPROC` and `RLIMIT_MEMLOCK`. -/
def solaris64 (undef : RDouble → Nat) : Platform where
  RLIMIT_AS := some 6
  RLIMIT_CORE := 4
  RLIMIT_CPU := 0
  RLIMIT_DATA := 2
  RLIMIT_FSIZE := 1
  RLIMIT_MEMLOCK := none
  RLIMIT_NOFILE := 5
  RLIMIT_NPROC := none
  RLIMIT_STACK := 3
  RLIM_INFINITY := 2 ^ 64 - 3
  rlim_bits := 64
  rlim_undef := undef
  PRIO_PROCESS := 0

/-- A host whose coercions read the first element of an integer or logical
vector and answer the missing marker otherwise. -/
def simpleHost : Host where
  Rf_asInteger := fun x =>
    match x with
    | .int (v :: _) _ => v
    | .lgl (v :: _) => v
    | _ => NA_INTEGER
  Rf_asLogical := fun x =>
    match x with
    | .lgl (v :: _) => v
    | .int (v :: _) _ => if v = NA_INTEGER then NA_INTEGER else if v ≠ 0 then 1 else 0
    | _ => NA_INTEGER

/-- A kernel whose state counts the calls it has answered: the getters answer
1000, everything else succeeds with 0. -/
def acceptAll : OS Nat where
  call := fun c k =>
    match c with
    | .getuid => (1000, k + 1)
    | .getgid => (1000, k + 1)
    | .getpgid _ => (1000, k + 1)
    | .getpriority _ _ => (5, k + 1)
    | .aa_getcon => (11, k + 1)
    | .aa_is_enabled => (1, k + 1)
    | _ => (0, k + 1)
  getcon := fun _ => (some "unconfined", none)

/-- A kernel that rejects every call with -1 and stores nothing through the
out-pointers of `aa_getcon`. -/
def rejectAll : OS Nat where
  call := fun _ k => (-1, k + 1)
  getcon := fun _ => (none, none)

/-- A kernel that accepts `setrlimit` on every resource but `bad`. -/
def rejectResource (bad : Int) : OS Nat where
  call := fun c k =>
    match c with
    | .setrlimit r _ _ => if r = bad then (-1, k + 1) else (0, k + 1)
    | _ => (0, k + 1)
  getcon := fun _ => (none, none)

/-- The initial world over a counting kernel. -/
def world0 : World Nat := { kernel := 0, trace := [], R_TempDir := "/tmp", R_Interactive := 0 }

/-! ## Vocabulary for the statements about `R_set_rlimits` -/

/-- The value `R_set_rlimits` computes for an entry (`rlim_val` in the source):
the operands of `?:` are a double and an `rlim_t`, so C converts
`RLIM_INFINITY` to double before the result is converted to `rlim_t`. -/
def passedLimit (P : Platform) (val : RDouble) : Nat :=
  double_to_rlim P (if R_finite val then val else rlim_to_double P.RLIM_INFINITY)

/-- Position `i` is to be applied: its kind is supported (not negative) and its
entry is neither zero nor the missing marker. -/
def applied (P : Platform) (data : List RDouble) (i : Nat) : Bool :=
  decide (0 ≤ (rlimit_types P).getD i 0) && !(data.getD i NA_REAL).eqZero
    && !ISNA (data.getD i NA_REAL)

/-- The `setrlimit` call for position `i`: the kind at `i` of the table, soft
and hard limit both the value computed from entry `i`. -/
def callAt (P : Platform) (data : List RDouble) (i : Nat) : Syscall :=
  .setrlimit ((rlimit_types P).getD i 0) (passedLimit P (data.getD i NA_REAL))
    (passedLimit P (data.getD i NA_REAL))

/-- The calls for the applied positions among `positions`, in the order of
`positions`. -/
def planned (P : Platform) (data : List RDouble) (positions : List Nat) : List Syscall :=
  (positions.filter (applied P data)).map (callAt P data)

/-- The kernel state after the calls `cs` are answered one after the other. -/
def OS.exec (os : OS σ) : List Syscall → σ → σ
  | [], k => k
  | c :: cs, k => os.exec cs (os.call c k).2

/-- Every call of `cs`, answered one after the other from state `k`, returns a
non-negative value. -/
def OS.accepts (os : OS σ) : List Syscall → σ → Bool
  | [], _ => true
  | c :: cs, k => decide (0 ≤ (os.call c k).1) && os.accepts cs (os.call c k).2

/-- Issue the calls `cs` in order, stopping with the `setrlimit()` error at the
first one that returns a negative value. -/
def issue (os : OS σ) : List Syscall → World σ → Outcome σ
  | [], w => (w, .ok R_NilValue)
  | c :: cs, w =>
    if w.ret os c < 0 then (w.after os c, .error (.system "setrlimit()"))
    else issue os cs (w.after os c)

/-- The two validation errors of `R_set_rlimits`. -/
def isValidationError (r : Except RError SEXP) : Prop :=
  r = .error (.error "limitvec is not numeric") ∨ r = .error (.error "limitvec wrong size")

/-- A vector of nine doubles: missing, infinite, zero and finite entries. -/
def sampleLimits : List RDouble :=
  [NA_REAL, R_PosInf, .ofNat 0, .ofNat 4096, NA_REAL, .ofNat 1, R_NegInf, .nan 0, NA_REAL]

/-- A vector of nine doubles with only missing, zero and finite entries. -/
def finiteLimits : List RDouble :=
  [NA_REAL, .ofNat 0, .ofNat 60, NA_REAL, .ofNat 4096, NA_REAL, .ofNat 256, NA_REAL, .ofNat 0]

/-- Eight missing entries and positive infinity at position 1 (core size). -/
def coreUnlimited : List RDouble :=
  [NA_REAL, R_PosInf, NA_REAL, NA_REAL, NA_REAL, NA_REAL, NA_REAL, NA_REAL, NA_REAL]

/-- Nine missing entries. -/
def allMissing : List RDouble := List.replicate 9 NA_REAL

/-! ## Basic facts about `bail_if` -/

theorem bail_if_zero (what : String) : bail_if 0 what = .ok () := by
  simp [bail_if]

theorem bail_if_of_ne (err : Int) (what : String) (h : err ≠ 0) :
    bail_if err what = .error (.system what) := by
  simp [bail_if, h]

theorem bail_if_cLt_neg (r : Int) (what : String) (h : r < 0) :
    bail_if (cLt r 0) what = .error (.system what) := by
  simp [bail_if, cLt, h]

theorem bail_if_cLt_nonneg (r : Int) (what : String) (h : 0 ≤ r) :
    bail_if (cLt r 0) what = .ok () := by
  simp [bail_if, cLt, not_lt.mpr h]

/-! ## process.c: the setters -/

/-- C5: each of `R_setuid`, `R_setgid`, `R_setpgid`, `R_setpriority`, when the
underlying set call succeeds (returns 0), issues exactly two calls, the set
call and then the get call (`getuid`, `getgid`, `getpgid(0)`,
`getpriority(PRIO_PROCESS, 0)`), and returns the integer the kernel answers to
that get call in the state the set call left, which is the outcome of the
getter in that world; the argument enters only through the set call. When the
set call fails (returns a negative value) the entry point raises, no value is
returned, and the set call is the only call issued: the get is not run. -/
theorem set_returns_reread_value (P : Platform) (H : Host) (os : OS σ) (x : SEXP)
    (w : World σ) :
    (w.ret os (Syscall.setuid (H.Rf_asInteger x)) = 0 →
        R_setuid H os x w = R_getuid os (w.after os (Syscall.setuid (H.Rf_asInteger x)))
        ∧ R_setuid H os x w
            = ((w.after os (Syscall.setuid (H.Rf_asInteger x))).after os (Syscall.getuid),
               .ok (Rf_ScalarInteger (toCInt ((w.after os (Syscall.setuid (H.Rf_asInteger x))).ret os (Syscall.getuid)))))
        ∧ (R_setuid H os x w).1.trace
            = w.trace ++ [Syscall.setuid (H.Rf_asInteger x), Syscall.getuid])
    ∧ (w.ret os (Syscall.setuid (H.Rf_asInteger x)) < 0 →
        (∃ e, R_setuid H os x w = (w.after os (Syscall.setuid (H.Rf_asInteger x)), .error e))
        ∧ (R_setuid H os x w).1.trace = w.trace ++ [Syscall.setuid (H.Rf_asInteger x)])
    ∧ (w.ret os (Syscall.setgid (H.Rf_asInteger x)) = 0 →
        R_setgid H os x w = R_getgid os (w.after os (Syscall.setgid (H.Rf_asInteger x)))
        ∧ R_setgid H os x w
            = ((w.after os (Syscall.setgid (H.Rf_asInteger x))).after os (Syscall.getgid),
               .ok (Rf_ScalarInteger (toCInt ((w.after os (Syscall.setgid (H.Rf_asInteger x))).ret os (Syscall.getgid)))))
        ∧ (R_setgid H os x w).1.trace
            = w.trace ++ [Syscall.setgid (H.Rf_asInteger x), Syscall.getgid])
    ∧ (w.ret os (Syscall.setgid (H.Rf_asInteger x)) < 0 →
        (∃ e, R_setgid H os x w = (w.after os (Syscall.setgid (H.Rf_asInteger x)), .error e))
        ∧ (R_setgid H os x w).1.trace = w.trace ++ [Syscall.setgid (H.Rf_asInteger x)])
    ∧ (w.ret os (Syscall.setpgid 0 (H.Rf_asInteger x)) = 0 →
        R_setpgid H os x w = R_getpgid os (w.after os (Syscall.setpgid 0 (H.Rf_asInteger x)))
        ∧ R_setpgid H os x w
            = ((w.after os (Syscall.setpgid 0 (H.Rf_asInteger x))).after os (Syscall.getpgid 0),
               .ok (Rf_ScalarInteger (toCInt ((w.after os (Syscall.setpgid 0 (H.Rf_asInteger x))).ret os (Syscall.getpgid 0)))))
        ∧ (R_setpgid H os x w).1.trace
            = w.trace ++ [Syscall.setpgid 0 (H.Rf_asInteger x), Syscall.getpgid 0])
    ∧ (w.ret os (Syscall.setpgid 0 (H.Rf_asInteger x)) < 0 →
        (∃ e, R_setpgid H os x w = (w.after os (Syscall.setpgid 0 (H.Rf_asInteger x)), .error e))
        ∧ (R_setpgid H os x w).1.trace = w.trace ++ [Syscall.setpgid 0 (H.Rf_asInteger x)])
    ∧ (w.ret os (Syscall.setpriority P.PRIO_PROCESS 0 (H.Rf_asInteger x)) = 0 →
        R_setpriority P H os x w = R_getpriority P os (w.after os (Syscall.setpriority P.PRIO_PROCESS 0 (H.Rf_asInteger x)))
        ∧ R_setpriority P H os x w
            = ((w.after os (Syscall.setpriority P.PRIO_PROCESS 0 (H.Rf_asInteger x))).after os (Syscall.getpriority P.PRIO_PROCESS 0),
               .ok (Rf_ScalarInteger (toCInt ((w.after os (Syscall.setpriority P.PRIO_PROCESS 0 (H.Rf_asInteger x))).ret os (Syscall.getpriority P.PRIO_PROCESS 0)))))
        ∧ (R_setpriority P H os x w).1.trace
            = w.trace ++ [Syscall.setpriority P.PRIO_PROCESS 0 (H.Rf_asInteger x), Syscall.getpriority P.PRIO_PROCESS 0])
    ∧ (w.ret os (Syscall.setpriority P.PRIO_PROCESS 0 (H.Rf_asInteger x)) < 0 →
        (∃ e, R_setpriority P H os x w = (w.after os (Syscall.setpriority P.PRIO_PROCESS 0 (H.Rf_asInteger x)), .error e))
        ∧ (R_setpriority P H os x w).1.trace = w.trace ++ [Syscall.setpriority P.PRIO_PROCESS 0 (H.Rf_asInteger x)]) := by
  refine ⟨?_, ?_, ?_, ?_, ?_, ?_, ?_, ?_⟩
  · intro h
    simp only [R_setuid, bail_if_cLt_nonneg _ _ (le_of_eq h.symm)]
    exact ⟨trivial, rfl, by simp [R_getuid, World.after]⟩
  · intro h
    simp only [R_setuid, bail_if_cLt_neg _ _ h]
    exact ⟨⟨_, rfl⟩, by simp [World.after]⟩
  · intro h
    simp only [R_setgid, bail_if_cLt_nonneg _ _ (le_of_eq h.symm)]
    exact ⟨trivial, rfl, by simp [R_getgid, World.after]⟩
  · intro h
    simp only [R_setgid, bail_if_cLt_neg _ _ h]
    exact ⟨⟨_, rfl⟩, by simp [World.after]⟩
  · intro h
    have hb : bail_if (w.ret os (Syscall.setpgid 0 (H.Rf_asInteger x))) "setpgid()" = .ok () := by
      rw [h]; exact bail_if_zero _
    simp only [R_setpgid, hb]
    exact ⟨trivial, rfl, by simp [R_getpgid, World.after]⟩
  · intro h
    simp only [R_setpgid, bail_if_of_ne _ _ (ne_of_lt h)]
    exact ⟨⟨_, rfl⟩, by simp [World.after]⟩
  · intro h
    simp only [R_setpriority, bail_if_cLt_nonneg _ _ (le_of_eq h.symm)]
    exact ⟨trivial, rfl, by simp [R_getpriority, World.after]⟩
  · intro h
    simp only [R_setpriority, bail_if_cLt_neg _ _ h]
    exact ⟨⟨_, rfl⟩, by simp [World.after]⟩

/-- C5 at concrete inputs: on a kernel that accepts every set call and then
reports uid, gid and process group 1000 and priority 5, the setters given 0,
0, 0 and 10 return 1000, 1000, 1000 and 5, after the set call and the get
call; on a kernel that rejects the set call only that call is issued. -/
theorem set_returns_reread_value_witness :
    R_setuid simpleHost acceptAll (.int [0] false) world0
        = ({ world0 with kernel := 2, trace := [.setuid 0, .getuid] },
           .ok (Rf_ScalarInteger 1000))
      ∧ R_setgid simpleHost acceptAll (.int [0] false) world0
        = ({ world0 with kernel := 2, trace := [.setgid 0, .getgid] },
           .ok (Rf_ScalarInteger 1000))
      ∧ R_setpgid simpleHost acceptAll (.int [0] false) world0
        = ({ world0 with kernel := 2, trace := [.setpgid 0 0, .getpgid 0] },
           .ok (Rf_ScalarInteger 1000))
      ∧ R_setpriority (linux64 fun _ => 0) simpleHost acceptAll (.int [10] false) world0
        = ({ world0 with kernel := 2, trace := [.setpriority 0 0 10, .getpriority 0 0] },
           .ok (Rf_ScalarInteger 5))
      ∧ (R_setuid simpleHost rejectAll (.int [0] false) world0).1.trace = [.setuid 0] :=
  ⟨((set_returns_reread_value (linux64 fun _ => 0) simpleHost acceptAll (.int [0] false)
      world0).1 (by decide)).2.1,
   ((set_returns_reread_value (linux64 fun _ => 0) simpleHost acceptAll (.int [0] false)
      world0).2.2.1 (by decide)).2.1,
   ((set_returns_reread_value (linux64 fun _ => 0) simpleHost acceptAll (.int [0] false)
      world0).2.2.2.2.1 (by decide)).2.1,
   ((set_returns_reread_value (linux64 fun _ => 0) simpleHost acceptAll (.int [10] false)
      world0).2.2.2.2.2.2.1 (by decide)).2.1,
   ((set_returns_reread_value (linux64 fun _ => 0) simpleHost rejectAll (.int [0] false)
      world0).2.1 (by decide)).2⟩

/-! ## Labels of the fatal errors -/

/-- Each forwarding entry point of process.c, when its call returns a negative
value, raises the error of `bail_if` under the label written in the source. -/
theorem process_failure_labels (P : Platform) (H : Host) (os : OS σ) (x y : SEXP)
    (w : World σ) :
    (w.ret os (.kill (H.Rf_asInteger x) (H.Rf_asInteger y)) < 0 →
        (R_kill H os x y w).2 = .error (.system "send kill()"))
    ∧ (w.ret os (.setuid (H.Rf_asInteger x)) < 0 →
        (R_setuid H os x w).2 = .error (.system "setuid()"))
    ∧ (w.ret os (.setgid (H.Rf_asInteger x)) < 0 →
        (R_setgid H os x w).2 = .error (.system "setuid()"))
    ∧ (w.ret os (.setpgid 0 (H.Rf_asInteger x)) < 0 →
        (R_setpgid H os x w).2 = .error (.system "setpgid()"))
    ∧ (w.ret os (.setpriority P.PRIO_PROCESS 0 (H.Rf_asInteger x)) < 0 →
        (R_setpriority P H os x w).2 = .error (.system "setpriority()")) := by
  refine ⟨?_, ?_, ?_, ?_, ?_⟩
  · intro h
    simp only [R_kill, bail_if_cLt_neg _ _ h]
  · intro h
    simp only [R_setuid, bail_if_cLt_neg _ _ h]
  · intro h
    simp only [R_setgid, bail_if_cLt_neg _ _ h]
  · intro h
    simp only [R_setpgid, bail_if_of_ne _ _ (ne_of_lt h)]
  · intro h
    simp only [R_setpriority, bail_if_cLt_neg _ _ h]

/-- With confinement support, `R_aa_change_profile` on a character vector
raises under the label "aa_change_profile()" when the call returns a negative
value. -/
theorem aa_change_profile_failure_label (B : Build) (os : OS σ) (s : Option String)
    (rest : List (Option String)) (w : World σ) (hB : B.HAVE_APPARMOR = true)
    (h : w.ret os (.aa_change_profile (CHAR s)) < 0) :
    (R_aa_change_profile B os (.str (s :: rest)) w).2
      = .error (.system "aa_change_profile()") := by
  simp only [R_aa_change_profile, hB, if_true, STRING_ELT, List.get?, bail_if_cLt_neg _ _ h]

/-- C6, at the failing input: `R_setgid` on a kernel whose `setgid` returns -1
raises the fatal error labelled "setuid()", whose text is "setuid() failed";
the label does not name `setgid`. -/
theorem setgid_failure_names_setuid :
    (R_setgid simpleHost rejectAll (.int [0] false) world0).2
        = .error (.system "setuid()")
      ∧ (R_setgid simpleHost rejectAll (.int [0] false) world0).1.trace = [.setgid 0]
      ∧ RError.message (.system "setuid()") = "setuid() failed"
      ∧ RError.system "setuid()" ≠ RError.system "setgid()" := by
  refine ⟨rfl, rfl, by decide, by decide⟩

/-! ## Build-gated operations -/

/-- C7, as amended: on a build without `SYS_BUILD_SAFE` both setters raise
their configuration error for every input and leave the world (interactive
flag and temp directory included) as it was; on a safe build
`R_set_interactive` stores the coerced flag and returns its input for every
input, and `R_set_tempdir` stores the path and returns its input for every
input whose element 0 `STRING_ELT` can read; `R_safe_build` answers TRUE
exactly on the safe builds. -/
theorem safe_build_gates_setters (B : Build) (H : Host) (x : SEXP) (w : World σ) :
    (B.SYS_BUILD_SAFE = false →
        R_set_interactive B H x w =
          (w, .error (.error
            "Cannot set interactive(), sys has been built without SYS_BUILD_SAFE"))
        ∧ R_set_tempdir B x w =
          (w, .error (.error
            "Cannot set tempdir(), sys has been built without SYS_BUILD_SAFE")))
    ∧ (B.SYS_BUILD_SAFE = true →
        R_set_interactive B H x w = ({ w with R_Interactive := H.Rf_asLogical x }, .ok x)
        ∧ ∀ s, STRING_ELT x 0 = some s →
            R_set_tempdir B x w = ({ w with R_TempDir := CHAR s }, .ok x))
    ∧ ((R_safe_build B w).1 = w)
    ∧ ((R_safe_build B w).2 = .ok (ScalarLogical 1) ↔ B.SYS_BUILD_SAFE = true) := by
  refine ⟨?_, ?_, ?_, ?_⟩
  · intro h
    simp [R_set_interactive, R_set_tempdir, h]
  · intro h
    refine ⟨by simp [R_set_interactive, h], ?_⟩
    intro s hs
    simp [R_set_tempdir, h, hs]
  · unfold R_safe_build
    split <;> rfl
  · cases hB : B.SYS_BUILD_SAFE <;> simp [R_safe_build, hB, ScalarLogical, NA_INTEGER]

/-- C7 at concrete inputs: a build without `SYS_BUILD_SAFE` refuses a path and
leaves the world as it was; a safe build stores it and returns the input. -/
theorem safe_build_gates_setters_witness :
    R_set_tempdir { SYS_BUILD_SAFE := false, HAVE_APPARMOR := false }
        (.str [some "/scratch"]) world0
        = (world0, .error (.error
            "Cannot set tempdir(), sys has been built without SYS_BUILD_SAFE"))
      ∧ R_set_tempdir { SYS_BUILD_SAFE := true, HAVE_APPARMOR := false }
          (.str [some "/scratch"]) world0
        = ({ world0 with R_TempDir := "/scratch" }, .ok (.str [some "/scratch"]))
      ∧ R_set_interactive { SYS_BUILD_SAFE := true, HAVE_APPARMOR := false } simpleHost
          (.lgl [1]) world0
        = ({ world0 with R_Interactive := 1 }, .ok (.lgl [1])) :=
  ⟨((safe_build_gates_setters { SYS_BUILD_SAFE := false, HAVE_APPARMOR := false } simpleHost
      (.str [some "/scratch"]) world0).1 rfl).2,
   ((safe_build_gates_setters { SYS_BUILD_SAFE := true, HAVE_APPARMOR := false } simpleHost
      (.str [some "/scratch"]) world0).2.1 rfl).2 (some "/scratch") rfl,
   ((safe_build_gates_setters { SYS_BUILD_SAFE := true, HAVE_APPARMOR := false } simpleHost
      (.lgl [1]) world0).2.1 rfl).1⟩

/-- C7 as stated fails: on a safe build `R_set_tempdir` given an integer vector
does not succeed; the accessor `STRING_ELT` rejects the value and the temp
directory stays unchanged. -/
theorem set_tempdir_rejects_non_character :
    R_set_tempdir { SYS_BUILD_SAFE := true, HAVE_APPARMOR := false } (.int [1] false) world0
      = (world0, .error (.access "STRING_ELT")) := by
  rfl

/-! ## Confinement queries -/

/-- With confinement support, `R_aa_getcon` answers the empty value exactly
when `aa_getcon` returns 0, and otherwise a list of the two strings the call
stored, a NULL pointer giving the missing string. -/
theorem aa_getcon_result (B : Build) (os : OS σ) (w : World σ)
    (hB : B.HAVE_APPARMOR = true) :
    (w.ret os .aa_getcon = 0 →
        R_aa_getcon B os w = (w.after os .aa_getcon, .ok R_NilValue))
    ∧ (w.ret os .aa_getcon ≠ 0 →
        R_aa_getcon B os w = (w.after os .aa_getcon,
          .ok (.vec [make_string (os.getcon w.kernel).1, make_string (os.getcon w.kernel).2]))) := by
  constructor
  · intro h
    simp [R_aa_getcon, hB, h]
  · intro h
    simp [R_aa_getcon, hB, h]

/-- C8, at the failing input: with confinement support, when `aa_getcon` fails
(returns -1 and stores nothing), `R_aa_getcon` does not answer the empty value
but a two-element list of missing strings. -/
theorem aa_getcon_failure_not_empty :
    R_aa_getcon { SYS_BUILD_SAFE := false, HAVE_APPARMOR := true } rejectAll world0
        = (world0.after rejectAll .aa_getcon,
            .ok (.vec [ScalarString none, ScalarString none]))
      ∧ World.ret rejectAll .aa_getcon world0 = -1
      ∧ SEXP.vec [ScalarString none, ScalarString none] ≠ R_NilValue := by
  refine ⟨rfl, rfl, ?_⟩
  intro h
  cases h

/-- C9: on a build without `HAVE_APPARMOR`, for every input and every kernel,
`R_aa_is_enabled` and `R_aa_getcon` answer the empty value and
`R_aa_change_profile` returns the empty value; none raises and the world is
unchanged, so no call has been issued. -/
theorem no_apparmor_is_inert (B : Build) (os : OS σ) (profile : SEXP) (w : World σ)
    (hB : B.HAVE_APPARMOR = false) :
    R_aa_is_enabled B os w = (w, .ok R_NilValue)
      ∧ R_aa_getcon B os w = (w, .ok R_NilValue)
      ∧ R_aa_change_profile B os profile w = (w, .ok R_NilValue) := by
  simp [R_aa_is_enabled, R_aa_getcon, R_aa_change_profile, hB]

/-- C9 at a concrete input: a build without confinement support, on a kernel
that would answer every call. -/
theorem no_apparmor_is_inert_witness :
    R_aa_is_enabled { SYS_BUILD_SAFE := true, HAVE_APPARMOR := false } acceptAll world0
        = (world0, .ok R_NilValue)
      ∧ R_aa_getcon { SYS_BUILD_SAFE := true, HAVE_APPARMOR := false } acceptAll world0
        = (world0, .ok R_NilValue)
      ∧ R_aa_change_profile { SYS_BUILD_SAFE := true, HAVE_APPARMOR := false } acceptAll
          (.str [some "profile"]) world0 = (world0, .ok R_NilValue) :=
  no_apparmor_is_inert _ acceptAll (.str [some "profile"]) world0 rfl

/-! ## `R_set_rlimits`: the loop -/

theorem set_rlimits_loop_cons (P : Platform) (os : OS σ) (data : List RDouble)
    (i : Nat) (rest : List Nat) (w : World σ) :
    set_rlimits_loop P os (.real data) (i :: rest) w
      = if applied P data i = true then
          (if w.ret os (callAt P data i) < 0 then
            (w.after os (callAt P data i), .error (.system "setrlimit()"))
          else set_rlimits_loop P os (.real data) rest (w.after os (callAt P data i)))
        else set_rlimits_loop P os (.real data) rest w := by
  rw [set_rlimits_loop]
  simp only [REAL, applied, callAt, passedLimit]
  generalize (rlimit_types P).getD i 0 = r
  generalize data.getD i NA_REAL = v
  by_cases hr : r < 0
  · simp [hr, not_le.mpr hr]
  · cases hz : v.eqZero
    · cases hna : ISNA v
      · by_cases hret : w.ret os (.setrlimit r
            (double_to_rlim P (if R_finite v = true then v else rlim_to_double P.RLIM_INFINITY))
            (double_to_rlim P (if R_finite v = true then v else rlim_to_double P.RLIM_INFINITY)))
            < 0
        · simp [hr, not_lt.mp hr, hret, bail_if, cLt]
        · simp [hr, not_lt.mp hr, hret, bail_if, cLt]
      · simp [hr]
    · simp [hr]

theorem planned_cons (P : Platform) (data : List RDouble) (i : Nat) (rest : List Nat) :
    planned P data (i :: rest)
      = if applied P data i = true then callAt P data i :: planned P data rest
        else planned P data rest := by
  unfold planned
  cases h : applied P data i <;> simp [List.filter_cons, h]

theorem planned_append (P : Platform) (data : List RDouble) (xs ys : List Nat) :
    planned P data (xs ++ ys) = planned P data xs ++ planned P data ys := by
  simp [planned, List.filter_append, List.map_append]

theorem set_rlimits_loop_eq_issue (P : Platform) (os : OS σ) (data : List RDouble)
    (positions : List Nat) (w : World σ) :
    set_rlimits_loop P os (.real data) positions w
      = issue os (planned P data positions) w := by
  induction positions generalizing w with
  | nil => rfl
  | cons i rest ih =>
    rw [set_rlimits_loop_cons, planned_cons]
    cases h : applied P data i
    · simpa using ih w
    · simp only [if_true, issue]
      rw [ih]

theorem R_set_rlimits_real (P : Platform) (os : OS σ) (data : List RDouble) (w : World σ)
    (hlen : data.length = 9) :
    R_set_rlimits P os (.real data) w = issue os (planned P data (List.range 9)) w := by
  simp [R_set_rlimits, Rf_isNumeric, Rf_length, rlimit_types, hlen, set_rlimits_loop_eq_issue]

theorem set_rlimits_loop_not_validation (P : Platform) (os : OS σ) (x : SEXP)
    (positions : List Nat) (w : World σ) (msg : String) :
    (set_rlimits_loop P os x positions w).2 ≠ .error (.error msg) := by
  induction positions generalizing w with
  | nil => simp [set_rlimits_loop]
  | cons i rest ih =>
    rw [set_rlimits_loop]
    cases hx : REAL x with
    | none => simp
    | some data =>
      simp only
      split
      · exact ih w
      · generalize World.ret os _ w = ret
        by_cases hret : ret < 0
        · simp [bail_if, cLt, hret]
        · simp only [bail_if, cLt, hret, if_false, ne_eq, not_true_eq_false]
          exact ih _

/-! ## Issuing a list of calls -/

theorem issue_accepts (os : OS σ) (cs : List Syscall) (w : World σ)
    (h : os.accepts cs w.kernel = true) :
    issue os cs w
      = ({ w with kernel := os.exec cs w.kernel, trace := w.trace ++ cs }, .ok R_NilValue) := by
  induction cs generalizing w with
  | nil => simp [issue, OS.exec]
  | cons c cs ih =>
    simp only [OS.accepts, Bool.and_eq_true, decide_eq_true_eq] at h
    have hret : ¬ w.ret os c < 0 := not_lt.mpr h.1
    simp only [issue, hret, if_false]
    rw [ih (w.after os c) h.2]
    simp [World.after, OS.exec]

theorem issue_rejects (os : OS σ) (pre : List Syscall) (c : Syscall) (post : List Syscall)
    (w : World σ) (hacc : os.accepts pre w.kernel = true)
    (hrej : (os.call c (os.exec pre w.kernel)).1 < 0) :
    issue os (pre ++ c :: post) w
      = ({ w with kernel := (os.call c (os.exec pre w.kernel)).2,
                  trace := w.trace ++ pre ++ [c] },
         .error (.system "setrlimit()")) := by
  induction pre generalizing w with
  | nil =>
    have hret : w.ret os c < 0 := hrej
    simp [issue, hret, World.after, OS.exec]
  | cons d pre ih =>
    simp only [OS.accepts, Bool.and_eq_true, decide_eq_true_eq] at hacc
    have hret : ¬ w.ret os d < 0 := not_lt.mpr hacc.1
    rw [List.cons_append, issue, if_neg hret, ih (w.after os d) hacc.2 hrej]
    simp [World.after, OS.exec]

theorem issue_trace (os : OS σ) (cs : List Syscall) (w : World σ) :
    ∃ issued, (issue os cs w).1.trace = w.trace ++ issued ∧ issued <+: cs := by
  induction cs generalizing w with
  | nil => exact ⟨[], by simp [issue]⟩
  | cons c cs ih =>
    by_cases hret : w.ret os c < 0
    · refine ⟨[c], by simp [issue, hret, World.after], ?_⟩
      exact ⟨cs, rfl⟩
    · obtain ⟨issued, h1, h2⟩ := ih (w.after os c)
      refine ⟨c :: issued, ?_, ?_⟩
      · simp only [issue, hret, if_false, h1]
        simp [World.after]
      · obtain ⟨t, ht⟩ := h2
        exact ⟨t, by simp [← ht]⟩

theorem issue_reaches (os : OS σ) (pre : List Syscall) (c : Syscall) (post : List Syscall)
    (w : World σ) (hacc : os.accepts pre w.kernel = true) :
    (w.trace ++ pre ++ [c]) <+: (issue os (pre ++ c :: post) w).1.trace := by
  induction pre generalizing w with
  | nil =>
    by_cases hret : w.ret os c < 0
    · simp [issue, hret, World.after]
    · obtain ⟨issued, h1, _⟩ := issue_trace os post (w.after os c)
      simp only [List.nil_append, issue, hret, if_false, h1]
      exact ⟨issued, by simp [World.after]⟩
  | cons d pre ih =>
    simp only [OS.accepts, Bool.and_eq_true, decide_eq_true_eq] at hacc
    have hret : ¬ w.ret os d < 0 := not_lt.mpr hacc.1
    have := ih (w.after os d) hacc.2
    rw [List.cons_append, issue, if_neg hret]
    simpa [World.after] using this

theorem issue_result (os : OS σ) (cs : List Syscall) (w : World σ) :
    (issue os cs w).2 = .ok R_NilValue ∨ (issue os cs w).2 = .error (.system "setrlimit()") := by
  induction cs generalizing w with
  | nil => simp [issue]
  | cons c cs ih =>
    by_cases hret : w.ret os c < 0
    · simp [issue, hret]
    · simpa [issue, hret] using ih (w.after os c)

theorem mem_planned (P : Platform) (data : List RDouble) (positions : List Nat)
    (c : Syscall) (h : c ∈ planned P data positions) :
    ∃ i ∈ positions, applied P data i = true ∧ c = callAt P data i := by
  simp only [planned, List.mem_map, List.mem_filter] at h
  obtain ⟨i, ⟨hi, ha⟩, rfl⟩ := h
  exact ⟨i, hi, ha, rfl⟩

theorem applied_of_missing (P : Platform) (data : List RDouble)
    (h : ∀ v ∈ data, ISNA v = true) (i : Nat) : applied P data i = false := by
  have hv : ISNA (data.getD i NA_REAL) = true := by
    rw [List.getD_eq_getElem?_getD]
    cases hi : data[i]? with
    | none => rfl
    | some v => exact h v (List.getElem?_mem hi)
  unfold applied
  rw [hv]
  simp

theorem planned_of_missing (P : Platform) (data : List RDouble)
    (h : ∀ v ∈ data, ISNA v = true) (positions : List Nat) :
    planned P data positions = [] := by
  simp [planned, List.filter_eq_nil_iff, applied_of_missing P data h]

/-! ## `R_set_rlimits`: validation -/

/-- C2: an input that `Rf_isNumeric` rejects, or whose length is not 9, makes
`R_set_rlimits` raise one of its two validation errors with the world
unchanged (no call issued, no partial effect); an input that `Rf_isNumeric`
accepts and whose length is 9 never raises a validation error, and when it is
a vector of doubles the call either returns the empty value or raises the
`setrlimit()` error. -/
theorem set_rlimits_validation (P : Platform) (os : OS σ) (x : SEXP) (w : World σ) :
    ((Rf_isNumeric x = false ∨ Rf_length x ≠ 9) →
        (R_set_rlimits P os x w).1 = w ∧ isValidationError (R_set_rlimits P os x w).2)
    ∧ ((Rf_isNumeric x = true ∧ Rf_length x = 9) →
        ¬ isValidationError (R_set_rlimits P os x w).2)
    ∧ (∀ data, x = .real data → data.length = 9 →
        (R_set_rlimits P os x w).2 = .ok R_NilValue
          ∨ (R_set_rlimits P os x w).2 = .error (.system "setrlimit()")) := by
  refine ⟨?_, ?_, ?_⟩
  · intro h
    cases hn : Rf_isNumeric x
    · simp [R_set_rlimits, hn, isValidationError]
    · have hl : Rf_length x ≠ 9 := by
        rcases h with h | h
        · simp [hn] at h
        · exact h
      simp [R_set_rlimits, hn, rlimit_types, hl, isValidationError]
  · rintro ⟨hn, hl⟩
    have hrun : R_set_rlimits P os x w = set_rlimits_loop P os x (List.range 9) w := by
      simp [R_set_rlimits, hn, rlimit_types, hl]
    rw [hrun]
    intro hv
    rcases hv with hv | hv
    · exact set_rlimits_loop_not_validation P os x _ w _ hv
    · exact set_rlimits_loop_not_validation P os x _ w _ hv
  · intro data hx hlen
    subst hx
    rw [R_set_rlimits_real P os data w hlen]
    exact issue_result os _ w

/-- C2 at concrete inputs: a character vector and a vector of eight doubles
are rejected with nothing issued; a vector of nine doubles passes. -/
theorem set_rlimits_validation_witness :
    ((R_set_rlimits (darwin64 fun _ => 0) acceptAll (.str [some "a"]) world0).1 = world0
        ∧ isValidationError
            (R_set_rlimits (darwin64 fun _ => 0) acceptAll (.str [some "a"]) world0).2)
      ∧ ((R_set_rlimits (darwin64 fun _ => 0) acceptAll
            (.real (List.replicate 8 NA_REAL)) world0).1 = world0
        ∧ isValidationError (R_set_rlimits (darwin64 fun _ => 0) acceptAll
            (.real (List.replicate 8 NA_REAL)) world0).2)
      ∧ ¬ isValidationError
            (R_set_rlimits (darwin64 fun _ => 0) acceptAll (.real finiteLimits) world0).2 :=
  ⟨(set_rlimits_validation _ acceptAll (.str [some "a"]) world0).1 (Or.inl rfl),
   (set_rlimits_validation _ acceptAll (.real (List.replicate 8 NA_REAL)) world0).1
      (Or.inr (by decide)),
   (set_rlimits_validation _ acceptAll (.real finiteLimits) world0).2.1 ⟨rfl, rfl⟩⟩

/-! ## `R_set_rlimits`: which calls are issued -/

/-- C1, as amended: for a vector of nine doubles, the calls to be issued are
those of the applied positions (kind supported, entry neither zero nor
missing), in ascending position order, each on the kind at its position.
When the kernel accepts all of them, `R_set_rlimits` issues exactly these
calls and returns the empty value. Whatever the kernel answers, the calls
issued are an initial segment of them, so none is issued for a zero or missing
entry. A vector of nine missing entries leaves the world unchanged and returns
the empty value. -/
theorem set_rlimits_issues_planned (P : Platform) (os : OS σ) (data : List RDouble)
    (w : World σ) (hlen : data.length = 9) :
    (os.accepts (planned P data (List.range 9)) w.kernel = true →
        R_set_rlimits P os (.real data) w
          = ({ w with kernel := os.exec (planned P data (List.range 9)) w.kernel,
                      trace := w.trace ++ planned P data (List.range 9) },
             .ok R_NilValue))
    ∧ (∃ issued, (R_set_rlimits P os (.real data) w).1.trace = w.trace ++ issued
        ∧ issued <+: planned P data (List.range 9)
        ∧ ∀ c ∈ issued, ∃ i, i < 9 ∧ applied P data i = true ∧ c = callAt P data i)
    ∧ ((∀ v ∈ data, ISNA v = true) →
        R_set_rlimits P os (.real data) w = (w, .ok R_NilValue)) := by
  rw [R_set_rlimits_real P os data w hlen]
  refine ⟨fun h => issue_accepts os _ w h, ?_, ?_⟩
  · obtain ⟨issued, h1, h2⟩ := issue_trace os (planned P data (List.range 9)) w
    refine ⟨issued, h1, h2, ?_⟩
    intro c hc
    obtain ⟨i, hi, ha, hcall⟩ := mem_planned P data _ c (h2.subset hc)
    exact ⟨i, List.mem_range.mp hi, ha, hcall⟩
  · intro h
    rw [planned_of_missing P data h]
    rfl

/-- C1 at a concrete input: on a kernel that accepts every call, the vector
`finiteLimits` makes Darwin issue the calls for positions 2, 4 and 6 (CPU time,
file size, open files) and nothing for the zero and missing entries; nine
missing entries issue nothing at all. -/
theorem set_rlimits_issues_planned_witness :
    finiteLimits.length = 9
      ∧ planned (darwin64 fun _ => 0) finiteLimits (List.range 9)
          = [.setrlimit 0 60 60, .setrlimit 1 4096 4096, .setrlimit 8 256 256]
      ∧ R_set_rlimits (darwin64 fun _ => 0) acceptAll (.real finiteLimits) world0
          = ({ world0 with
                kernel := acceptAll.exec
                  (planned (darwin64 fun _ => 0) finiteLimits (List.range 9)) world0.kernel,
                trace := world0.trace
                  ++ planned (darwin64 fun _ => 0) finiteLimits (List.range 9) },
             .ok R_NilValue)
      ∧ R_set_rlimits (darwin64 fun _ => 0) acceptAll (.real allMissing) world0
          = (world0, .ok R_NilValue) :=
  ⟨rfl, by decide,
   (set_rlimits_issues_planned (darwin64 fun _ => 0) acceptAll finiteLimits world0 rfl).1
      (by decide),
   (set_rlimits_issues_planned (darwin64 fun _ => 0) acceptAll allMissing world0 rfl).2.2
      (by decide)⟩

/-- Where the headers lack `RLIMIT_MEMLOCK` and `RLIMIT_NPROC`, positions 5 and
7 hold the kind -1 and are never applied, whatever their entries. -/
theorem unsupported_kinds_skipped (undef : RDouble → Nat) (data : List RDouble) :
    applied (solaris64 undef) data 5 = false ∧ applied (solaris64 undef) data 7 = false := by
  constructor <;> simp [applied, rlimit_types, solaris64]

/-- C1 as stated fails: positions 2, 4 and 6 of `finiteLimits` are all to be
applied, but on a kernel that rejects the first call only the call for
position 2 is issued. -/
theorem set_rlimits_skips_after_rejection :
    planned (darwin64 fun _ => 0) finiteLimits (List.range 9)
        = [.setrlimit 0 60 60, .setrlimit 1 4096 4096, .setrlimit 8 256 256]
      ∧ (R_set_rlimits (darwin64 fun _ => 0) rejectAll (.real finiteLimits) world0).1.trace
          = [.setrlimit 0 60 60]
      ∧ (R_set_rlimits (darwin64 fun _ => 0) rejectAll (.real finiteLimits) world0).2
          = .error (.system "setrlimit()") := by
  refine ⟨by decide, by decide, rfl⟩

/-! ## `R_set_rlimits`: the first rejection -/

/-- C3: for a vector of nine doubles, let the calls to be issued (in table
order) split as `pre`, then `c`, then `post`, where the kernel accepts every
call of `pre` in turn and rejects `c`. Then `R_set_rlimits` raises the
`setrlimit()` error, the calls issued are `pre` followed by `c` and no call
of `post`, and the kernel is left in the state reached through `pre` and `c`:
what was applied stays applied. -/
theorem set_rlimits_stops_at_first_rejection (P : Platform) (os : OS σ)
    (data : List RDouble) (w : World σ) (pre : List Syscall) (c : Syscall)
    (post : List Syscall) (hlen : data.length = 9)
    (hplan : planned P data (List.range 9) = pre ++ c :: post)
    (hacc : os.accepts pre w.kernel = true)
    (hrej : (os.call c (os.exec pre w.kernel)).1 < 0) :
    R_set_rlimits P os (.real data) w
      = ({ w with kernel := (os.call c (os.exec pre w.kernel)).2,
                  trace := w.trace ++ pre ++ [c] },
         .error (.system "setrlimit()")) := by
  rw [R_set_rlimits_real P os data w hlen, hplan]
  exact issue_rejects os pre c post w hacc hrej

/-- C3 at a concrete input: Darwin, the vector `finiteLimits`, a kernel that
rejects the file-size limit (kind 1). The CPU-time call is issued and kept,
the file-size call is rejected, and the open-files call is never issued. -/
theorem set_rlimits_stops_at_first_rejection_witness :
    R_set_rlimits (darwin64 fun _ => 0) (rejectResource 1) (.real finiteLimits) world0
      = ({ world0 with
            kernel := ((rejectResource 1).call (.setrlimit 1 4096 4096)
                        ((rejectResource 1).exec [.setrlimit 0 60 60] world0.kernel)).2,
            trace := world0.trace ++ [.setrlimit 0 60 60] ++ [.setrlimit 1 4096 4096] },
         .error (.system "setrlimit()")) :=
  set_rlimits_stops_at_first_rejection (darwin64 fun _ => 0) (rejectResource 1) finiteLimits
    world0 [.setrlimit 0 60 60] (.setrlimit 1 4096 4096) [.setrlimit 8 256 256] rfl
    (by decide) (by decide) (by decide)

/-! ## `R_set_rlimits`: the values passed -/

theorem passedLimit_finite (P : Platform) (v : RDouble) (h : R_finite v = true) :
    passedLimit P v = double_to_rlim P v := by
  simp [passedLimit, h]

theorem passedLimit_not_finite (P : Platform) (v : RDouble) (h : R_finite v = false) :
    passedLimit P v = double_to_rlim P (rlim_to_double P.RLIM_INFINITY) := by
  simp [passedLimit, h]

theorem bitLength_le (fuel n k : Nat) (h : n < 2 ^ k) : bitLength fuel n ≤ k := by
  induction fuel generalizing n k with
  | zero => simp [bitLength]
  | succ fuel ih =>
    unfold bitLength
    split
    · exact Nat.zero_le k
    · rename_i hn
      cases k with
      | zero =>
        simp at h
        exact absurd h hn
      | succ k =>
        have h2 : n / 2 < 2 ^ k := by
          rw [Nat.div_lt_iff_lt_mul (by decide)]
          simpa [pow_succ] using h
        have := ih (n / 2) k h2
        omega

/-- A limit below `2^53` that `rlim_t` can hold survives the conversion to
double and back. -/
theorem double_round_trip (P : Platform) (n : Nat) (h53 : n < 2 ^ 53)
    (hbits : n < 2 ^ P.rlim_bits) : double_to_rlim P (rlim_to_double n) = n := by
  have hsize : bitLength 128 n ≤ 53 := bitLength_le 128 n 53 h53
  simp [rlim_to_double, hsize, double_to_rlim, not_le.mpr hbits]

/-- Every call `R_set_rlimits` plans passes one value as soft and as hard
limit: the entry converted to `rlim_t` when the entry is finite, and otherwise
`RLIM_INFINITY` converted to double and back, which is `RLIM_INFINITY` itself
on a platform where that constant is below `2^53`. -/
theorem planned_call_values (P : Platform) (data : List RDouble) (i : Nat) :
    (∃ x, callAt P data i = .setrlimit ((rlimit_types P).getD i 0) x x
        ∧ (R_finite (data.getD i NA_REAL) = true → x = double_to_rlim P (data.getD i NA_REAL))
        ∧ (R_finite (data.getD i NA_REAL) = false →
            x = double_to_rlim P (rlim_to_double P.RLIM_INFINITY))
        ∧ (R_finite (data.getD i NA_REAL) = false → P.RLIM_INFINITY < 2 ^ 53 →
            P.RLIM_INFINITY < 2 ^ P.rlim_bits → x = P.RLIM_INFINITY)) := by
  refine ⟨passedLimit P (data.getD i NA_REAL), rfl, ?_, ?_, ?_⟩
  · exact passedLimit_finite P _
  · exact passedLimit_not_finite P _
  · intro h h53 hbits
    rw [passedLimit_not_finite P _ h, double_round_trip P _ h53 hbits]

theorem bitLength_gt (fuel n k : Nat) (hk : k < fuel) (h : 2 ^ k ≤ n) :
    k < bitLength fuel n := by
  induction fuel generalizing n k with
  | zero => omega
  | succ fuel ih =>
    unfold bitLength
    have hn : n ≠ 0 := by
      have : 0 < 2 ^ k := Nat.two_pow_pos k
      omega
    rw [if_neg hn]
    cases k with
    | zero => omega
    | succ k =>
      have h2 : 2 ^ k ≤ n / 2 := by
        rw [Nat.le_div_iff_mul_le (by decide)]
        simpa [pow_succ] using h
      have := ih (n / 2) k (by omega) h2
      omega

/-- Where `RLIM_INFINITY` is odd and at least `2^53` (as `2^64 - 1`, `2^63 - 1`
and `2^64 - 3` are), the value passed for an entry that is not finite is
`RLIM_INFINITY` only if it is the result of an out-of-range conversion. -/
theorem rounded_limit_differs (P : Platform) (v : RDouble) (hfin : R_finite v = false)
    (h53 : 2 ^ 53 ≤ P.RLIM_INFINITY) (hodd : P.RLIM_INFINITY % 2 = 1) :
    passedLimit P v ≠ P.RLIM_INFINITY
      ∨ passedLimit P v = P.rlim_undef (rlim_to_double P.RLIM_INFINITY) := by
  rw [passedLimit_not_finite P v hfin]
  have hs : 53 < bitLength 128 P.RLIM_INFINITY := bitLength_gt 128 _ 53 (by decide) h53
  generalize P.RLIM_INFINITY = n at *
  obtain ⟨q, sh, hsh, hd⟩ : ∃ q sh, 1 ≤ sh ∧ rlim_to_double n = .finite false q (Int.ofNat sh) := by
    unfold rlim_to_double
    simp only [not_le.mpr hs, if_false]
    exact ⟨_, _, by omega, rfl⟩
  rw [hd]
  unfold double_to_rlim
  simp only [Bool.false_and, Bool.false_or, Int.ofNat_eq_coe, Int.natCast_nonneg, if_true, Int.toNat_ofNat, decide_eq_true_eq]
  by_cases hr : 2 ^ P.rlim_bits ≤ q * 2 ^ sh
  · right
    simp [hr]
  · left
    simp only [hr, if_false]
    intro heq
    have : (q * 2 ^ sh) % 2 = 0 := by
      obtain ⟨t, rfl⟩ : ∃ t, sh = t + 1 := ⟨sh - 1, by omega⟩
      rw [pow_succ, ← mul_assoc]
      simp
    omega

theorem rlim_to_double_darwin :
    rlim_to_double (2 ^ 63 - 1) = .finite false (2 ^ 53) 10 := by
  decide

theorem double_to_rlim_darwin (undef : RDouble → Nat) :
    double_to_rlim (darwin64 undef) (.finite false (2 ^ 53) 10) = 2 ^ 63 := by
  simp only [double_to_rlim, darwin64]
  norm_num [show Int.toNat 10 = 10 from rfl]

theorem passedLimit_darwin_not_finite (undef : RDouble → Nat) (v : RDouble)
    (h : R_finite v = false) : passedLimit (darwin64 undef) v = 2 ^ 63 := by
  rw [passedLimit_not_finite _ _ h]
  show double_to_rlim (darwin64 undef) (rlim_to_double (2 ^ 63 - 1)) = 2 ^ 63
  rw [rlim_to_double_darwin, double_to_rlim_darwin]

theorem planned_coreUnlimited (undef : RDouble → Nat) :
    planned (darwin64 undef) coreUnlimited (List.range 9)
      = [.setrlimit 4 (2 ^ 63) (2 ^ 63)] := by
  have e : List.range 9 = [0, 1, 2, 3, 4, 5, 6, 7, 8] := by decide
  have a0 : ∀ i, i ≠ 1 → i < 9 → applied (darwin64 undef) coreUnlimited i = false := by
    intro i h1 h9
    interval_cases i <;> first | rfl | exact absurd rfl h1
  have a1 : applied (darwin64 undef) coreUnlimited 1 = true := rfl
  have c1 : callAt (darwin64 undef) coreUnlimited 1 = .setrlimit 4 (2 ^ 63) (2 ^ 63) := by
    have hv : coreUnlimited.getD 1 NA_REAL = R_PosInf := rfl
    have hk : (rlimit_types (darwin64 undef)).getD 1 0 = 4 := rfl
    unfold callAt
    rw [hv, hk, passedLimit_darwin_not_finite undef R_PosInf rfl]
  rw [e]
  simp [planned_cons, a0, a1, planned, c1]

/-- C4, at the failing input: on Darwin (`rlim_t` unsigned of 64 bits,
`RLIM_INFINITY = 2^63 - 1`), whatever the platform does with out-of-range
doubles, an infinite entry at the core-size position makes `R_set_rlimits`
pass `2^63` as soft and hard limit, not `RLIM_INFINITY`: the constant is
rounded to the double `2^53 * 2^10` on its way through the `?:` operator. -/
theorem infinite_entry_passes_rounded_limit (undef : RDouble → Nat) :
    (R_set_rlimits (darwin64 undef) acceptAll (.real coreUnlimited) world0).1.trace
        = [.setrlimit 4 (2 ^ 63) (2 ^ 63)]
      ∧ (darwin64 undef).RLIM_INFINITY = 2 ^ 63 - 1
      ∧ rlim_to_double (2 ^ 63 - 1) = .finite false (2 ^ 53) 10
      ∧ (2 : Nat) ^ 63 ≠ 2 ^ 63 - 1 := by
  refine ⟨?_, rfl, rlim_to_double_darwin, by decide⟩
  have hlen : coreUnlimited.length = 9 := rfl
  rw [R_set_rlimits_real _ _ _ _ hlen, planned_coreUnlimited]
  rfl

/-! ## `R_set_rlimits`: entries that are not finite -/

theorem range_split (i : Nat) (hi : i < 9) :
    ∃ tail, List.range 9 = List.range i ++ i :: tail := by
  refine ⟨(List.range 9).drop (i + 1), ?_⟩
  interval_cases i <;> decide

theorem applied_iff (P : Platform) (data : List RDouble) (j : Nat)
    (hk : 0 ≤ (rlimit_types P).getD j 0) :
    applied P data j = false
      ↔ ((data.getD j NA_REAL).eqZero = true ∨ ISNA (data.getD j NA_REAL) = true) := by
  unfold applied
  generalize data.getD j NA_REAL = v at *
  generalize (rlimit_types P).getD j 0 = r at *
  cases h1 : v.eqZero <;> cases h2 : ISNA v <;> simp [hk]

/-- C10, as amended: at a supported position, only a zero entry and the
missing marker are skipped. Where the entry is a NaN other than the missing
marker, or negative infinity, the position is applied; its call passes as
soft and as hard limit the very value passed for positive infinity; the call
comes in the plan right after the calls of the earlier positions, and it is
issued as soon as the kernel has accepted those. -/
theorem non_finite_entries_applied (P : Platform) (os : OS σ) (data : List RDouble)
    (w : World σ) (i : Nat) (hlen : data.length = 9) (hi : i < 9)
    (hkind : 0 ≤ (rlimit_types P).getD i 0)
    (hval : (∃ lw, lw ≠ 1954 ∧ data.getD i NA_REAL = .nan lw)
      ∨ data.getD i NA_REAL = R_NegInf) :
    applied P data i = true
    ∧ callAt P data i = .setrlimit ((rlimit_types P).getD i 0) (passedLimit P R_PosInf)
        (passedLimit P R_PosInf)
    ∧ (∃ post, planned P data (List.range 9)
        = planned P data (List.range i) ++ callAt P data i :: post)
    ∧ (os.accepts (planned P data (List.range i)) w.kernel = true →
        (w.trace ++ planned P data (List.range i) ++ [callAt P data i])
          <+: (R_set_rlimits P os (.real data) w).1.trace)
    ∧ (∀ j, 0 ≤ (rlimit_types P).getD j 0 →
        (applied P data j = false
          ↔ ((data.getD j NA_REAL).eqZero = true ∨ ISNA (data.getD j NA_REAL) = true))) := by
  have hz : (data.getD i NA_REAL).eqZero = false := by
    rcases hval with ⟨lw, _, h⟩ | h <;> rw [h] <;> rfl
  have hna : ISNA (data.getD i NA_REAL) = false := by
    rcases hval with ⟨lw, hlw, h⟩ | h
    · rw [h]
      simp [ISNA, hlw]
    · rw [h]
      rfl
  have hfin : R_finite (data.getD i NA_REAL) = false := by
    rcases hval with ⟨lw, _, h⟩ | h <;> rw [h] <;> rfl
  have happ : applied P data i = true := by
    cases h : applied P data i
    · rcases (applied_iff P data i hkind).mp h with h1 | h1
      · rw [hz] at h1
        cases h1
      · rw [hna] at h1
        cases h1
    · rfl
  have hplan : ∃ post, planned P data (List.range 9)
      = planned P data (List.range i) ++ callAt P data i :: post := by
    obtain ⟨tail, ht⟩ := range_split i hi
    refine ⟨planned P data tail, ?_⟩
    rw [ht, planned_append, planned_cons, if_pos happ]
  refine ⟨happ, ?_, hplan, ?_, fun j hj => applied_iff P data j hj⟩
  · unfold callAt
    rw [passedLimit_not_finite P _ hfin, passedLimit_not_finite P R_PosInf rfl]
  · intro hacc
    obtain ⟨post, hp⟩ := hplan
    rw [R_set_rlimits_real P os data w hlen, hp]
    exact issue_reaches os _ _ post w hacc

/-- C10 at a concrete input: position 6 of `sampleLimits` (open files on
Darwin, kind 8) holds negative infinity and position 7 (process count, kind 7)
a NaN that is not the missing marker; both are applied with the value passed
for positive infinity. -/
theorem non_finite_entries_applied_witness :
    (applied (darwin64 fun _ => 0) sampleLimits 6 = true
      ∧ callAt (darwin64 fun _ => 0) sampleLimits 6
          = .setrlimit ((rlimit_types (darwin64 fun _ => 0)).getD 6 0)
              (passedLimit (darwin64 fun _ => 0) R_PosInf)
              (passedLimit (darwin64 fun _ => 0) R_PosInf))
    ∧ (applied (darwin64 fun _ => 0) sampleLimits 7 = true
      ∧ callAt (darwin64 fun _ => 0) sampleLimits 7
          = .setrlimit ((rlimit_types (darwin64 fun _ => 0)).getD 7 0)
              (passedLimit (darwin64 fun _ => 0) R_PosInf)
              (passedLimit (darwin64 fun _ => 0) R_PosInf)) :=
  ⟨⟨(non_finite_entries_applied (darwin64 fun _ => 0) acceptAll sampleLimits world0 6 rfl
        (by decide) (by decide) (Or.inr rfl)).1,
    (non_finite_entries_applied (darwin64 fun _ => 0) acceptAll sampleLimits world0 6 rfl
        (by decide) (by decide) (Or.inr rfl)).2.1⟩,
   ⟨(non_finite_entries_applied (darwin64 fun _ => 0) acceptAll sampleLimits world0 7 rfl
        (by decide) (by decide) (Or.inl ⟨0, by decide, rfl⟩)).1,
    (non_finite_entries_applied (darwin64 fun _ => 0) acceptAll sampleLimits world0 7 rfl
        (by decide) (by decide) (Or.inl ⟨0, by decide, rfl⟩)).2.1⟩⟩

/-- C10 as stated fails in two ways. With `sampleLimits` on Darwin, where
position 6 (kind 8) holds negative infinity: on a kernel that rejects the
first call nothing is issued for kind 8; on a kernel that accepts every call
the limits passed for kind 8 are `2^63`, which is not `RLIM_INFINITY`. -/
theorem non_finite_entry_not_always_unlimited :
    sampleLimits.getD 6 NA_REAL = R_NegInf
      ∧ (rlimit_types (darwin64 fun _ => 0)).getD 6 0 = 8
      ∧ (R_set_rlimits (darwin64 fun _ => 0) rejectAll (.real sampleLimits) world0).1.trace
          = [.setrlimit 4 (2 ^ 63) (2 ^ 63)]
      ∧ (R_set_rlimits (darwin64 fun _ => 0) acceptAll (.real sampleLimits) world0).1.trace
          = [.setrlimit 4 (2 ^ 63) (2 ^ 63), .setrlimit 2 4096 4096, .setrlimit 6 1 1,
             .setrlimit 8 (2 ^ 63) (2 ^ 63), .setrlimit 7 (2 ^ 63) (2 ^ 63)]
      ∧ (darwin64 fun _ => 0).RLIM_INFINITY = 2 ^ 63 - 1 := by
  refine ⟨rfl, rfl, by decide, by decide, rfl⟩

end Unix
